import Mathlib

/-!
Verification development for the live-odds-monitor betting core.

The Python sources are shallowly embedded over exact rational arithmetic:
`float` values become `ℚ`, nullable values become `Option`, American odds
become `ℤ`, and team/sport identifiers stay `String`.  Every definition
mirrors one function of the repository; the file then proves the spec's
claims about those definitions.
-/

namespace LiveOdds

/-- Python `abs` on a rational. -/
def pyAbs (q : ℚ) : ℚ := if q < 0 then -q else q


/-- Python `round` (banker's rounding, round-half-to-even) to an integer. -/
def roundHalfEven (x : ℚ) : ℤ :=
  if x - ⌊x⌋ < 1/2 then ⌊x⌋
  else if 1/2 < x - ⌊x⌋ then ⌊x⌋ + 1
  else if ⌊x⌋ % 2 = 0 then ⌊x⌋ else ⌊x⌋ + 1

/-- Python `round(x, 2)`: round to two decimal places, halves to even cents. -/
def round2 (x : ℚ) : ℚ := (roundHalfEven (x * 100) : ℚ) / 100





/-- `pre` is a leading segment of `s` (character lists; structural so that
proofs can evaluate it). -/
def charListStartsWith : List Char → List Char → Bool
  | _, [] => true
  | [], _ :: _ => false
  | c :: cs, p :: ps => c == p && charListStartsWith cs ps

/-- `pat` occurs as a contiguous segment of `s` (character lists). -/
def charListContains : List Char → List Char → Bool
  | [], pat => pat.isEmpty
  | c :: cs, pat => charListStartsWith (c :: cs) pat || charListContains cs pat

/-- Python substring test `pat in s`. -/
def strContains (s pat : String) : Bool := charListContains s.data pat.data

/-- Python `s.startswith(pre)`. -/
def pyStartsWith (s pre : String) : Bool := charListStartsWith s.data pre.data

/-- Python `s.lower()` (ASCII identifiers only in this code base). -/
def pyLower (s : String) : String := ⟨s.data.map Char.toLower⟩

/-- `s.split()[0]`: the first whitespace-separated word (team names in
this code base have no leading blanks). -/
def firstWord (s : String) : String := ⟨s.data.takeWhile (fun c => !(c == ' '))⟩

/-- `"nba" in sport.lower()` — the sport test used throughout
`scripts/watch_live.py`. -/
def isNba (sport : String) : Bool := strContains (pyLower sport) "nba"

/-! ## Bet sizer — `scripts/watch_live.py`, `calculate_bet_size` -/

/-- `KELLY_FRACTION = 0.25` (design constant of `scripts/watch_live.py`). -/
def KELLY_FRACTION : ℚ := 1/4

/-- Net odds per unit staked: `b = 100/abs(odds)` for negative American odds,
`b = odds/100` for positive ones (`calculate_bet_size`, first branch). -/
def kellyB (odds : ℤ) : ℚ :=
  if odds < 0 then 100 / pyAbs (odds : ℚ) else (odds : ℚ) / 100

/-- Raw Kelly fraction `(b*p - q)/b` with `q = 1 - p`. -/
def kellyPct (win_prob : ℚ) (odds : ℤ) : ℚ :=
  let b := kellyB odds
  let p := win_prob
  let q := 1 - p
  (b * p - q) / b

/-- `calculate_bet_size(bankroll, win_prob, odds)` of `scripts/watch_live.py`:
quarter-Kelly stake, clamped to `[0, 0.20]` of bankroll, rounded to cents. -/
def calculate_bet_size (bankroll win_prob : ℚ) (odds : ℤ) : ℚ :=
  let kelly_pct := kellyPct win_prob odds
  let bet_pct := kelly_pct * KELLY_FRACTION
  let bet_pct := max 0 (min bet_pct (1/5))
  round2 (bankroll * bet_pct)

/-! ## Opportunity scorer — `scripts/watch_live.py`,
`calculate_opportunity_score` -/

/-- Line-movement component (0–35 points). -/
def lineScore (pct_change : ℚ) : ℤ :=
  if pct_change ≥ 5/2 then 35
  else if pct_change ≥ 2 then 30
  else if pct_change ≥ 3/2 then 25
  else if pct_change ≥ 1 then 20
  else if pct_change ≥ 3/4 then 15
  else 0

/-- Time-remaining component (0–30 points), sport-adjusted; 0 when the
minutes-remaining estimate is `None`. -/
def timeScore (mins_remaining : Option ℚ) (sport : String) : ℤ :=
  match mins_remaining with
  | none => 0
  | some m =>
    if isNba sport then
      if 15 ≤ m ∧ m ≤ 30 then 30
      else if (12 ≤ m ∧ m < 15) ∨ (30 < m ∧ m ≤ 36) then 20
      else if m < 12 then 5
      else 10
    else
      if 12 ≤ m ∧ m ≤ 25 then 30
      else if (10 ≤ m ∧ m < 12) ∨ (25 < m ∧ m ≤ 30) then 20
      else if m < 10 then 5
      else 10

/-- Opening-spread component (0–15 points). -/
def spreadScore (opening_spread : ℚ) : ℤ :=
  if pyAbs opening_spread ≤ 2 then 15
  else if pyAbs opening_spread ≤ 3 then 12
  else if pyAbs opening_spread ≤ 5 then 8
  else if pyAbs opening_spread ≤ 7 then 5
  else if pyAbs opening_spread ≤ 10 then 3
  else 0

/-- Score-differential component (0–10 points). -/
def diffScore (score_diff : ℚ) : ℤ :=
  if pyAbs score_diff ≤ 5 then 10
  else if pyAbs score_diff ≤ 10 then 7
  else if pyAbs score_diff ≤ 15 then 4
  else 0

/-- Sport component (0–10 points): NBA scores 10, everything else 5. -/
def sportScore (sport : String) : ℤ := if isNba sport then 10 else 5

/-- The grade expression of `calculate_opportunity_score`'s returned dict:
`"A" if score >= 80 else "B" if score >= 70 else "C" if score >= 60 else "D"`. -/
def gradeOf (score : ℤ) : String :=
  if score ≥ 80 then "A" else if score ≥ 70 then "B"
  else if score ≥ 60 then "C" else "D"

/-- The dict returned by `calculate_opportunity_score`. -/
structure OppScore where
  total_score : ℤ
  line_move : ℤ
  time_remaining : ℤ
  opening_spread : ℤ
  score_diff : ℤ
  sport : ℤ
  grade : String
deriving DecidableEq

/-- `calculate_opportunity_score` of `scripts/watch_live.py`. -/
def calculate_opportunity_score (pct_change : ℚ) (mins_remaining : Option ℚ)
    (opening_spread : ℚ) (score_diff : ℚ) (sport : String) : OppScore :=
  let line_score := lineScore pct_change
  let time_score := timeScore mins_remaining sport
  let spread_score := spreadScore opening_spread
  let diff_score := diffScore score_diff
  let sport_score := sportScore sport
  let score := line_score + time_score + spread_score + diff_score + sport_score
  { total_score := score
    line_move := line_score
    time_remaining := time_score
    opening_spread := spread_score
    score_diff := diff_score
    sport := sport_score
    grade := gradeOf score }

/-! ## Fade-direction resolver — `scripts/watch_live.py`, `main`,
the FADE STRATEGY block (spreads already normalised to the home team's
perspective). -/

/-- The fade decision of `scripts/watch_live.py`: if the home spread moved
down (toward home), bet the away team; otherwise bet home at its current
spread. -/
def fadeDecision (home away : String) (open_home current_home : ℚ) :
    String × ℚ :=
  let home_spread_change := current_home - open_home
  if home_spread_change < 0 then
    (away, if current_home < 0 then -current_home else current_home)
  else
    (home, current_home)

/-! ## Bet outcome resolver — `core/tracker.py`,
`HistoricalTracker.resolve_pending_bets` -/

/-- The home-side test of `resolve_pending_bets`:
`bet_team == home_team or home_team.startswith(bet_team.split()[0])`. -/
def betTeamIsHome (bet_team home_team : String) : Bool :=
  bet_team == home_team || pyStartsWith home_team (firstWord bet_team)

/-- The cover/profit computation of `resolve_pending_bets` for one bet:
home side uses `margin + bet_spread`, away side uses `-margin + bet_spread`
(the source takes `bet_spread` as stored, without `abs`), cover iff the
adjusted margin is strictly positive; profit `+100` on a cover, `-110`
otherwise. -/
def resolveBet (bet_team home_team : String) (bet_spread : ℚ) (margin : ℤ) :
    Bool × ℚ :=
  let adjusted_margin :=
    if betTeamIsHome bet_team home_team then (margin : ℚ) + bet_spread
    else -(margin : ℚ) + bet_spread
  let covered := decide (adjusted_margin > 0)
  (covered, if covered then 100 else -110)

/-! ## Backfill bet simulation — `scripts/backfill.py`,
`simulate_bets_for_game` -/

/-- The bet-selection rule of `simulate_bets_for_game`: widened spread →
bet the underdog at the midgame line, narrowed → bet the favorite; away
bets store the home line sign-flipped. -/
def simulateBetTeamSpread (home_team away_team : String)
    (open_home mid_home : ℚ) : String × ℚ :=
  if pyAbs mid_home > pyAbs open_home then
    if mid_home > 0 then (home_team, mid_home) else (away_team, -mid_home)
  else
    if mid_home < 0 then (home_team, mid_home) else (away_team, -mid_home)

/-- The cover/profit rule of `simulate_bets_for_game`: home bets use
`final_margin + mid_home`, away bets use `-final_margin + abs(mid_home)`. -/
def simulateOutcome (bet_team home_team : String) (mid_home : ℚ)
    (final_margin : ℤ) : Bool × ℚ :=
  let adjusted :=
    if bet_team == home_team then (final_margin : ℚ) + mid_home
    else -(final_margin : ℚ) + pyAbs mid_home
  let covered := decide (adjusted > 0)
  (covered, if covered then 100 else -110)

/-! ## Spread change — `scripts/backfill.py`, `calculate_spread_change`,
and `db/models.py`, `Game.spread_change` -/

/-- `calculate_spread_change(opening, current)` of `scripts/backfill.py`. -/
def calculate_spread_change (opening current : Option ℚ) : Option ℚ :=
  match opening, current with
  | some o, some c => if o = 0 then none else some (pyAbs (c / o) - 1)
  | _, _ => none

/-- `Odds` of `db/models.py` (the `timestamp` bookkeeping field is
omitted — no claim mentions it). -/
structure Odds where
  spread_home : Option ℚ := none
  spread_away : Option ℚ := none
  spread_home_price : Option ℤ := none
  spread_away_price : Option ℤ := none
  moneyline_home : Option ℤ := none
  moneyline_away : Option ℤ := none
  total : Option ℚ := none
  over_price : Option ℤ := none
  under_price : Option ℤ := none
deriving DecidableEq

/-- Python truthiness of an optional float: `not x` holds for `None` and
for `0.0`. -/
def pyFalsyQ : Option ℚ → Bool
  | none => true
  | some x => x == 0

/-- `Game.spread_change` of `db/models.py`: the guard
`if not ...spread_home or not ...spread_home` uses Python truthiness, so a
spread of exactly `0.0` is treated like a missing one. -/
def spreadChangeGame (opening_odds current_odds : Option Odds) : Option ℚ :=
  match opening_odds, current_odds with
  | some o, some c =>
    if pyFalsyQ o.spread_home || pyFalsyQ c.spread_home then none
    else if o.spread_home = some 0 then none
    else
      match o.spread_home, c.spread_home with
      | some ov, some cv => some (pyAbs (cv / ov) - 1)
      | _, _ => none
  | _, _ => none

/-! ## Spread extraction — `scripts/backfill.py`,
`get_spread_from_bookmakers`, and `db/models.py`, `Odds.from_api_response` -/

/-- One outcome of a bookmaker market block. -/
structure ApiOutcome where
  name : String
  point : Option ℚ := none
  price : Option ℤ := none
deriving DecidableEq

/-- One market of a bookmaker block. -/
structure ApiMarket where
  key : String
  outcomes : List ApiOutcome
deriving DecidableEq

/-- One bookmaker block of an API game record. -/
structure ApiBookmaker where
  key : String
  markets : List ApiMarket
deriving DecidableEq

/-- The quadruple returned by `get_spread_from_bookmakers`. -/
structure SpreadQuad where
  home_spread : Option ℚ
  away_spread : Option ℚ
  home_price : Option ℤ
  away_price : Option ℤ
deriving DecidableEq

/-- The all-`None` quadruple. -/
def SpreadQuad.nulls : SpreadQuad := ⟨none, none, none, none⟩

/-- The outcome loop of `get_spread_from_bookmakers`: the outcome named
like the home team fills the home slots, every other outcome fills the
away slots. -/
def extractSpreadOutcomes (outcomes : List ApiOutcome) (home_team : String) :
    SpreadQuad :=
  outcomes.foldl
    (fun acc o =>
      if o.name == home_team then
        { acc with home_spread := o.point, home_price := o.price }
      else
        { acc with away_spread := o.point, away_price := o.price })
    SpreadQuad.nulls

/-- The market loop: the first `"spreads"` market of a block, if any. -/
def findSpreadsMarket (home_team : String) : List ApiMarket → Option SpreadQuad
  | [] => none
  | m :: ms =>
    if m.key = "spreads" then some (extractSpreadOutcomes m.outcomes home_team)
    else findSpreadsMarket home_team ms

/-- `get_spread_from_bookmakers(bookmakers, home_team)` of
`scripts/backfill.py`; the bookmaker key is the hardcoded `"fanduel"`.
A `"fanduel"` block without a `"spreads"` market does not return: the
outer loop moves on to the next block. -/
def get_spread_from_bookmakers (home_team : String) :
    List ApiBookmaker → SpreadQuad
  | [] => SpreadQuad.nulls
  | bm :: rest =>
    if bm.key = "fanduel" then
      match findSpreadsMarket home_team bm.markets with
      | some q => q
      | none => get_spread_from_bookmakers home_team rest
    else get_spread_from_bookmakers home_team rest

/-- One market's effect on the accumulated `Odds` in
`Odds.from_api_response` (`db/models.py`): spreads, h2h and totals markets
are recognised, anything else is ignored. -/
def processMarket (home_team : String) (odds : Odds) (m : ApiMarket) : Odds :=
  if m.key = "spreads" then
    m.outcomes.foldl
      (fun acc o =>
        if o.name == home_team then
          { acc with spread_home := o.point, spread_home_price := o.price }
        else
          { acc with spread_away := o.point, spread_away_price := o.price })
      odds
  else if m.key = "h2h" then
    m.outcomes.foldl
      (fun acc o =>
        if o.name == home_team then { acc with moneyline_home := o.price }
        else { acc with moneyline_away := o.price })
      odds
  else if m.key = "totals" then
    m.outcomes.foldl
      (fun acc o =>
        if o.name == "Over" then
          { acc with total := o.point, over_price := o.price }
        else { acc with under_price := o.price })
      odds
  else odds

/-- `Odds.from_api_response(game, bookmaker_key)` of `db/models.py`: every
block whose key matches is processed (no early return), non-matching
blocks are skipped with `continue`. -/
def from_api_response (bookmakers : List ApiBookmaker) (home_team : String)
    (bookmaker_key : String) : Odds :=
  bookmakers.foldl
    (fun odds bm =>
      if bm.key ≠ bookmaker_key then odds
      else bm.markets.foldl (processMarket home_team) odds)
    {}

/-! ## Strategy aggregator — `core/tracker.py`,
`HistoricalTracker.get_strategy_stats`, and `db/storage.py`,
`Storage.get_bet_stats` -/

/-- A bet row as the aggregators read it from the database.  `pct_change`
is read with a `0` default (`b.get("pct_change", 0)` / `or 0`);
`mins_remaining` nulls are mapped to `0` by `or 0`. -/
structure BetRow where
  covered : Option Bool
  pct_change : Option ℚ
  mins_remaining : Option ℚ
  profit : Option ℚ
deriving DecidableEq

/-- The stats dict both aggregators return. -/
structure Stats where
  total_bets : ℕ
  wins : ℕ
  losses : ℕ
  win_rate : ℚ
  total_profit : ℚ
  roi : ℚ
deriving DecidableEq

/-- The all-zero stats dict returned on an empty filtered set. -/
def Stats.zero : Stats := ⟨0, 0, 0, 0, 0, 0⟩

/-- The shared tail of both aggregators: wins, losses, win rate, profit
and ROI over a non-empty filtered list (with the code's guards: the zero
dict on an empty list, `0` rates on zero denominators). -/
def aggregate (resolved : List BetRow) : Stats :=
  if resolved = [] then Stats.zero
  else
    { total_bets := resolved.length
      wins := (resolved.filter (fun b => b.covered.getD false)).length
      losses := resolved.length -
        (resolved.filter (fun b => b.covered.getD false)).length
      win_rate := if resolved.length = 0 then 0
        else ((resolved.filter (fun b => b.covered.getD false)).length : ℚ) /
          (resolved.length : ℚ)
      total_profit := (resolved.map (fun b => b.profit.getD 0)).sum
      roi := if ((resolved.length : ℚ) * 110) = 0 then 0
        else (resolved.map (fun b => b.profit.getD 0)).sum /
          ((resolved.length : ℚ) * 110) }

/-- The filter pipeline of `get_strategy_stats`: resolved bets only, then
optional minimum percent-change and minimum minutes-remaining filters. -/
def strategyFilter (bets : List BetRow) (min_pct_change : Option ℚ)
    (min_mins_remaining : Option ℚ) : List BetRow :=
  let resolved := bets.filter (fun b => b.covered.isSome)
  let resolved := match min_pct_change with
    | none => resolved
    | some θ => resolved.filter (fun b => θ ≤ b.pct_change.getD 0)
  match min_mins_remaining with
  | none => resolved
  | some μ => resolved.filter (fun b => μ ≤ b.mins_remaining.getD 0)

/-- `HistoricalTracker.get_strategy_stats` of `core/tracker.py`. -/
def get_strategy_stats (bets : List BetRow) (min_pct_change : Option ℚ)
    (min_mins_remaining : Option ℚ) : Stats :=
  aggregate (strategyFilter bets min_pct_change min_mins_remaining)

/-- `Storage.get_bet_stats` of `db/storage.py`: resolved rows (the SQL
`resolved_only` query), then the `(pct_change or 0) >= min_pct_change`
filter. -/
def get_bet_stats (bets : List BetRow) (min_pct_change : Option ℚ) : Stats :=
  let rows := bets.filter (fun b => b.covered.isSome)
  let rows := match min_pct_change with
    | none => rows
    | some θ => rows.filter (fun b => θ ≤ b.pct_change.getD 0)
  aggregate rows

/-! ## Parameter sweep — `scripts/analyze.py`, `analyze_combined_filters`
and `suggest_optimal_strategy` -/

/-- `BetRecord` of `scripts/analyze.py` (loaded rows; `spread_change_pct`
is the stored fractional change times 100). -/
structure BetRecord where
  game_id : String
  sport : String
  strategy : String
  bet_team : String
  bet_spread : ℚ
  opening_spread : ℚ
  spread_change_pct : ℚ
  final_margin : Option ℤ
  covered : Bool
  profit : ℚ
deriving DecidableEq

/-- One entry of `best_combos` in `analyze_combined_filters`: the Python
tuple `(roi, total, win_rate, profit, threshold, spread_name, dir_name,
sport_name)`. -/
structure Combo where
  roi : ℚ
  total : ℕ
  win_rate : ℚ
  profit : ℚ
  threshold : ℕ
  spread_name : String
  dir_name : String
  sport_name : String
deriving DecidableEq

/-- The thresholds swept by `analyze_combined_filters`. -/
def sweepThresholds : List ℕ := [50, 75, 100, 125, 150, 175, 200, 250]

/-- The spread buckets swept (name, low, high), filter `low ≤ |opening| < high`. -/
def sweepSpreadRanges : List (String × ℚ × ℚ) :=
  [("any", 0, 100), ("small", 0, 5), ("medium", 5, 10), ("large", 10, 100)]

/-- The direction filters swept: favorites have `bet_spread < 0`,
underdogs `bet_spread ≥ 0`. -/
def sweepDirections : List (String × Option String) :=
  [("any", none), ("favorite", some "fav"), ("underdog", some "dog")]

/-- The sport filters swept; a filter matches by substring on the raw
sport string (`sport_filter in b.sport`). -/
def sweepSports : List (String × Option String) :=
  [("any", none), ("ncaab", some "ncaab"), ("nba", some "nba")]

/-- The filter pipeline inside the innermost loop of
`analyze_combined_filters`. -/
def comboMatching (bets : List BetRecord) (threshold : ℕ)
    (spread_low spread_high : ℚ) (dir_filter : Option String)
    (sport_filter : Option String) : List BetRecord :=
  let matching := bets.filter (fun b => (threshold : ℚ) ≤ b.spread_change_pct)
  let matching := matching.filter
    (fun b => spread_low ≤ pyAbs b.opening_spread ∧
      pyAbs b.opening_spread < spread_high)
  let matching := match dir_filter with
    | some "fav" => matching.filter (fun b => b.bet_spread < 0)
    | some "dog" => matching.filter (fun b => 0 ≤ b.bet_spread)
    | _ => matching
  match sport_filter with
  | none => matching
  | some sf => matching.filter (fun b => strContains b.sport sf)

/-- One innermost iteration of `analyze_combined_filters`: the combo is
recorded only with at least 3 matching bets and a strictly positive ROI. -/
def comboOf (bets : List BetRecord) (threshold : ℕ)
    (spread_name : String) (spread_low spread_high : ℚ)
    (dir_name : String) (dir_filter : Option String)
    (sport_name : String) (sport_filter : Option String) : List Combo :=
  let matching :=
    comboMatching bets threshold spread_low spread_high dir_filter sport_filter
  if matching.length < 3 then []
  else
    let wins := (matching.filter (fun b => b.covered)).length
    let losses := (matching.filter (fun b => !b.covered)).length
    let total := wins + losses
    if total < 3 then []
    else
      let win_rate : ℚ := (wins : ℚ) / (total : ℚ) * 100
      let profit := (matching.map (fun b => b.profit)).sum
      let roi := profit / ((total : ℚ) * 110) * 100
      if 0 < roi then
        [{ roi := roi, total := total, win_rate := win_rate, profit := profit,
           threshold := threshold, spread_name := spread_name,
           dir_name := dir_name, sport_name := sport_name }]
      else []

/-- The `best_combos` list built by the four nested loops of
`analyze_combined_filters`, in enumeration order. -/
def sweepCombos (bets : List BetRecord) : List Combo :=
  sweepThresholds.flatMap fun threshold =>
    sweepSpreadRanges.flatMap fun sr =>
      sweepDirections.flatMap fun dir =>
        sweepSports.flatMap fun sp =>
          comboOf bets threshold sr.1 sr.2.1 sr.2.2 dir.1 dir.2 sp.1 sp.2

/-- Python's `<` on strings: lexicographic comparison of code points. -/
def charListLT : List Char → List Char → Bool
  | [], [] => false
  | [], _ :: _ => true
  | _ :: _, [] => false
  | c :: cs, d :: ds =>
    decide (c.toNat < d.toNat) || (c == d && charListLT cs ds)

/-- Python's `<` on two strings. -/
def strLT (s t : String) : Bool := charListLT s.data t.data

/-- Python's descending tuple comparison used by
`best_combos.sort(reverse=True)`: strict greater-than on the combo tuple,
component by component (floats first, then the name strings, compared as
Python compares strings). -/
def comboGT (x y : Combo) : Bool :=
  if x.roi ≠ y.roi then decide (y.roi < x.roi)
  else if x.total ≠ y.total then decide (y.total < x.total)
  else if x.win_rate ≠ y.win_rate then decide (y.win_rate < x.win_rate)
  else if x.profit ≠ y.profit then decide (y.profit < x.profit)
  else if x.threshold ≠ y.threshold then decide (y.threshold < x.threshold)
  else if x.spread_name ≠ y.spread_name then strLT y.spread_name x.spread_name
  else if x.dir_name ≠ y.dir_name then strLT y.dir_name x.dir_name
  else if x.sport_name ≠ y.sport_name then strLT y.sport_name x.sport_name
  else false

/-- The head of the stably reverse-sorted `best_combos` list: the first
element in enumeration order among those maximal for the full descending
tuple order (Python's stable `sort(reverse=True)` followed by `[0]`). -/
def pickBestCombo : List Combo → Option Combo
  | [] => none
  | c :: cs =>
    some (cs.foldl (fun best x => if comboGT x best then x else best) c)

/-- The selection the claim describes: maximal ROI only, ties kept at the
first-encountered combo in enumeration order. -/
def pickFirstMaxROI : List Combo → Option Combo
  | [] => none
  | c :: cs =>
    some (cs.foldl (fun best x => if best.roi < x.roi then x else best) c)

/-! ## Concrete inputs used by counterexamples and witnesses -/

/-- Three identical winning NBA bet records (sweep counterexample input):
every qualifying filter combination selects the same three bets, so every
recorded combo carries the same ROI and the tie-break becomes visible. -/
def betsCex : List BetRecord :=
  List.replicate 3
    ⟨"g", "basketball_nba", "s", "T", -2, 2, 60, none, true, 100⟩

/-- The combo the sweep's sort actually selects on `betsCex`. -/
def selCex : Combo := ⟨1000/11, 3, 100, 300, 50, "small", "favorite", "nba"⟩

/-- The first combo, in enumeration order, attaining the maximal ROI on
`betsCex`. -/
def firstCex : Combo := ⟨1000/11, 3, 100, 300, 50, "any", "any", "any"⟩

/-- A bookmaker list whose only `"fanduel"` block has no `"spreads"`
market (extraction witness input). -/
def bmsCex : List ApiBookmaker :=
  [⟨"draftkings", [⟨"spreads", [⟨"X", some 3, some (-110)⟩]⟩]⟩,
   ⟨"fanduel", [⟨"h2h", [⟨"X", none, some 120⟩]⟩]⟩]

/-! ## Helper lemmas -/

theorem pyAbs_eq_abs (q : ℚ) : pyAbs q = |q| := by
  unfold pyAbs
  rcases lt_trichotomy q 0 with h | h | h
  · rw [if_pos h, abs_of_neg h]
  · simp [h]
  · rw [if_neg (not_lt.mpr h.le), abs_of_pos h]

theorem roundHalfEven_nonneg {x : ℚ} (hx : 0 ≤ x) : 0 ≤ roundHalfEven x := by
  unfold roundHalfEven
  have hf : (0 : ℤ) ≤ ⌊x⌋ := Int.le_floor.mpr (by exact_mod_cast hx)
  split_ifs <;> omega

theorem roundHalfEven_le (x : ℚ) : (roundHalfEven x : ℚ) ≤ x + 1/2 := by
  unfold roundHalfEven
  have hfl : (⌊x⌋ : ℚ) ≤ x := Int.floor_le x
  have hfl2 : x < (⌊x⌋ : ℚ) + 1 := Int.lt_floor_add_one x
  split_ifs with h1 h2 h3 <;> push_cast <;> linarith

theorem round2_nonneg {x : ℚ} (hx : 0 ≤ x) : 0 ≤ round2 x := by
  unfold round2
  have h : (0 : ℤ) ≤ roundHalfEven (x * 100) :=
    roundHalfEven_nonneg (by positivity)
  positivity

theorem round2_le (x : ℚ) : round2 x ≤ x + 1/200 := by
  unfold round2
  have h := roundHalfEven_le (x * 100)
  linarith

theorem lineScore_bounds (p : ℚ) : 0 ≤ lineScore p ∧ lineScore p ≤ 35 := by
  unfold lineScore; split_ifs <;> omega

theorem timeScore_mem (m : Option ℚ) (sport : String) :
    timeScore m sport = 0 ∨ timeScore m sport = 5 ∨ timeScore m sport = 10 ∨
      timeScore m sport = 20 ∨ timeScore m sport = 30 := by
  cases m with
  | none => left; rfl
  | some v => simp only [timeScore]; split_ifs <;> simp

theorem timeScore_bounds (m : Option ℚ) (sport : String) :
    0 ≤ timeScore m sport ∧ timeScore m sport ≤ 30 := by
  rcases timeScore_mem m sport with h | h | h | h | h <;> rw [h] <;> omega

theorem spreadScore_bounds (s : ℚ) : 0 ≤ spreadScore s ∧ spreadScore s ≤ 15 := by
  unfold spreadScore; split_ifs <;> omega

theorem diffScore_bounds (d : ℚ) : 0 ≤ diffScore d ∧ diffScore d ≤ 10 := by
  unfold diffScore; split_ifs <;> omega

theorem sportScore_bounds (sport : String) :
    5 ≤ sportScore sport ∧ sportScore sport ≤ 10 := by
  unfold sportScore; split_ifs <;> omega

theorem gradeOf_chars (t : ℤ) :
    (gradeOf t = "A" ↔ 80 ≤ t) ∧ (gradeOf t = "B" ↔ 70 ≤ t ∧ t < 80) ∧
      (gradeOf t = "C" ↔ 60 ≤ t ∧ t < 70) ∧ (gradeOf t = "D" ↔ t < 60) := by
  unfold gradeOf
  split_ifs with h1 h2 h3 <;>
    refine ⟨⟨fun h => ?_, fun hga => ?_⟩, ⟨fun h => ?_, fun hgb => ?_⟩,
      ⟨fun h => ?_, fun hgc => ?_⟩, ⟨fun h => ?_, fun hgd => ?_⟩⟩ <;>
    first
      | rfl
      | omega
      | exact absurd h (by decide)

/-! ## Claim theorems -/

/-- Claim C2: the fade-direction resolver computes
`delta = current_home_spread - open_home_spread`; for `delta < 0` it
recommends the away team at the away-equivalent of the current home spread
(sign-flipped when the home spread is negative, i.e. the positive
magnitude `|current_home_spread|`), and for `delta ≥ 0` it recommends the
home team at `current_home_spread`; in particular a home spread moving
from −3.0 to −6.0 yields an away recommendation. -/
theorem claim_C2_fade_direction (home away : String)
    (open_home current_home : ℚ) :
    (current_home - open_home < 0 →
      fadeDecision home away open_home current_home = (away, |current_home|)) ∧
    (0 ≤ current_home - open_home →
      fadeDecision home away open_home current_home = (home, current_home)) ∧
    (fadeDecision home away (-3) (-6)).1 = away := by
  refine ⟨fun h => ?_, fun h => ?_, ?_⟩
  · simp only [fadeDecision, if_pos h]
    rw [show (if current_home < 0 then -current_home else current_home) =
      pyAbs current_home from rfl, pyAbs_eq_abs]
  · simp only [fadeDecision]
    rw [if_neg (not_lt.mpr h)]
  · norm_num [fadeDecision]

/-- Witness for C2 at concrete spreads: −3.0 → −6.0 recommends the away
team at +6.0, and −3.0 → −3.0 (delta 0) recommends the home team. -/
theorem claim_C2_witness :
    fadeDecision "HomeT" "AwayT" (-3) (-6) = ("AwayT", 6) ∧
    fadeDecision "HomeT" "AwayT" (-3) (-3) = ("HomeT", -3) := by
  constructor
  · have h := (claim_C2_fade_direction "HomeT" "AwayT" (-3) (-6)).1 (by norm_num)
    rw [h]; norm_num
  · exact (claim_C2_fade_direction "HomeT" "AwayT" (-3) (-3)).2.1 (by norm_num)

/-- Claim C3: the opportunity score is the unweighted sum of the five
component scores, always lies in [0, 100], and the grade is a function of
the total alone with the non-overlapping thresholds
≥80 → A, [70,80) → B, [60,70) → C, <60 → D (boundary values included). -/
theorem claim_C3_score_total_and_grade (pct_change : ℚ)
    (mins_remaining : Option ℚ) (opening_spread score_diff : ℚ)
    (sport : String) :
    (calculate_opportunity_score pct_change mins_remaining opening_spread
        score_diff sport).total_score =
      lineScore pct_change + timeScore mins_remaining sport +
        spreadScore opening_spread + diffScore score_diff +
        sportScore sport ∧
    0 ≤ (calculate_opportunity_score pct_change mins_remaining opening_spread
        score_diff sport).total_score ∧
    (calculate_opportunity_score pct_change mins_remaining opening_spread
        score_diff sport).total_score ≤ 100 ∧
    (calculate_opportunity_score pct_change mins_remaining opening_spread
        score_diff sport).grade =
      gradeOf (calculate_opportunity_score pct_change mins_remaining
        opening_spread score_diff sport).total_score ∧
    (∀ t : ℤ, (gradeOf t = "A" ↔ 80 ≤ t) ∧ (gradeOf t = "B" ↔ 70 ≤ t ∧ t < 80) ∧
      (gradeOf t = "C" ↔ 60 ≤ t ∧ t < 70) ∧ (gradeOf t = "D" ↔ t < 60)) ∧
    gradeOf 80 = "A" ∧ gradeOf 79 = "B" ∧ gradeOf 70 = "B" ∧
      gradeOf 69 = "C" ∧ gradeOf 60 = "C" ∧ gradeOf 59 = "D" := by
  obtain ⟨l1, l2⟩ := lineScore_bounds pct_change
  obtain ⟨t1, t2⟩ := timeScore_bounds mins_remaining sport
  obtain ⟨s1, s2⟩ := spreadScore_bounds opening_spread
  obtain ⟨d1, d2⟩ := diffScore_bounds score_diff
  obtain ⟨p1, p2⟩ := sportScore_bounds sport
  refine ⟨rfl, ?_, ?_, rfl, gradeOf_chars, by decide, by decide, by decide,
    by decide, by decide, by decide⟩
  · simp only [calculate_opportunity_score]; omega
  · simp only [calculate_opportunity_score]; omega

/-- Claim C4: the time-remaining component is 0 on a missing estimate;
NBA bands: [15,30] → 30, [12,15) ∪ (30,36] → 20, below 12 → 5, above
36 → 10; non-NBA (NCAAB) bands: [12,25] → 30, [10,12) ∪ (25,30] → 20,
below 10 → 5, above 30 → 10; and the component only ever takes the
values {0, 5, 10, 20, 30}. -/
theorem claim_C4_time_bands :
    (∀ sport, timeScore none sport = 0) ∧
    (∀ (sport : String) (m : ℚ), isNba sport = true →
      ((15 ≤ m ∧ m ≤ 30) → timeScore (some m) sport = 30) ∧
      ((12 ≤ m ∧ m < 15) ∨ (30 < m ∧ m ≤ 36) → timeScore (some m) sport = 20) ∧
      (m < 12 → timeScore (some m) sport = 5) ∧
      (36 < m → timeScore (some m) sport = 10)) ∧
    (∀ (sport : String) (m : ℚ), isNba sport = false →
      ((12 ≤ m ∧ m ≤ 25) → timeScore (some m) sport = 30) ∧
      ((10 ≤ m ∧ m < 12) ∨ (25 < m ∧ m ≤ 30) → timeScore (some m) sport = 20) ∧
      (m < 10 → timeScore (some m) sport = 5) ∧
      (30 < m → timeScore (some m) sport = 10)) ∧
    (∀ (m : Option ℚ) (sport : String),
      timeScore m sport = 0 ∨ timeScore m sport = 5 ∨ timeScore m sport = 10 ∨
        timeScore m sport = 20 ∨ timeScore m sport = 30) := by
  refine ⟨fun _ => rfl, fun sport m hb => ?_, fun sport m hb => ?_,
    timeScore_mem⟩
  · simp only [timeScore, hb, if_true]
    refine ⟨fun h => if_pos h, fun h => ?_, fun h => ?_, fun h => ?_⟩
    · have h1 : ¬ (15 ≤ m ∧ m ≤ 30) := by
        rcases h with ⟨a, b⟩ | ⟨a, b⟩ <;> rintro ⟨c, d⟩ <;> linarith
      rw [if_neg h1, if_pos h]
    · have h1 : ¬ (15 ≤ m ∧ m ≤ 30) := by rintro ⟨a, _⟩; linarith
      have h2 : ¬ ((12 ≤ m ∧ m < 15) ∨ (30 < m ∧ m ≤ 36)) := by
        rintro (⟨a, _⟩ | ⟨a, _⟩) <;> linarith
      rw [if_neg h1, if_neg h2, if_pos h]
    · have h1 : ¬ (15 ≤ m ∧ m ≤ 30) := by rintro ⟨_, a⟩; linarith
      have h2 : ¬ ((12 ≤ m ∧ m < 15) ∨ (30 < m ∧ m ≤ 36)) := by
        rintro (⟨_, a⟩ | ⟨_, a⟩) <;> linarith
      have h3 : ¬ m < 12 := by linarith
      rw [if_neg h1, if_neg h2, if_neg h3]
  · simp only [timeScore, hb, Bool.false_eq_true, if_false]
    refine ⟨fun h => if_pos h, fun h => ?_, fun h => ?_, fun h => ?_⟩
    · have h1 : ¬ (12 ≤ m ∧ m ≤ 25) := by
        rcases h with ⟨a, b⟩ | ⟨a, b⟩ <;> rintro ⟨c, d⟩ <;> linarith
      rw [if_neg h1, if_pos h]
    · have h1 : ¬ (12 ≤ m ∧ m ≤ 25) := by rintro ⟨a, _⟩; linarith
      have h2 : ¬ ((10 ≤ m ∧ m < 12) ∨ (25 < m ∧ m ≤ 30)) := by
        rintro (⟨a, _⟩ | ⟨a, _⟩) <;> linarith
      rw [if_neg h1, if_neg h2, if_pos h]
    · have h1 : ¬ (12 ≤ m ∧ m ≤ 25) := by rintro ⟨_, a⟩; linarith
      have h2 : ¬ ((10 ≤ m ∧ m < 12) ∨ (25 < m ∧ m ≤ 30)) := by
        rintro (⟨_, a⟩ | ⟨_, a⟩) <;> linarith
      have h3 : ¬ m < 10 := by linarith
      rw [if_neg h1, if_neg h2, if_neg h3]

/-- Witness for C4 at concrete minutes: 20 minutes is in the optimal band
for both sports, 35 minutes is in the NBA 20-band but the NCAAB 10-band. -/
theorem claim_C4_witness :
    timeScore (some 20) "basketball_nba" = 30 ∧
    timeScore (some 20) "basketball_ncaab" = 30 ∧
    timeScore (some 35) "basketball_nba" = 20 ∧
    timeScore (some 35) "basketball_ncaab" = 10 := by
  have hnba := claim_C4_time_bands.2.1
  have hncaab := claim_C4_time_bands.2.2.1
  refine ⟨(hnba "basketball_nba" 20 (by with_unfolding_all rfl)).1
      ⟨by norm_num, by norm_num⟩,
    ((hncaab "basketball_ncaab" 20 (by with_unfolding_all rfl)).1
      ⟨by norm_num, by norm_num⟩),
    (hnba "basketball_nba" 35 (by with_unfolding_all rfl)).2.1
      (Or.inr ⟨by norm_num, by norm_num⟩),
    ((hncaab "basketball_ncaab" 35 (by with_unfolding_all rfl)).2.2.2
      (by norm_num))⟩

/-- Claim C10: the total score is always at least 5 (the sport component
contributes 10 for NBA and 5 otherwise and no component is negative), so
the documented lower bound 0 is never attained and grade-D totals lie in
[5, 59]. -/
theorem claim_C10_total_lower_bound (pct_change : ℚ)
    (mins_remaining : Option ℚ) (opening_spread score_diff : ℚ)
    (sport : String) :
    5 ≤ (calculate_opportunity_score pct_change mins_remaining opening_spread
        score_diff sport).total_score ∧
    (isNba sport = true → sportScore sport = 10) ∧
    (isNba sport = false → sportScore sport = 5) ∧
    0 ≤ lineScore pct_change ∧ 0 ≤ timeScore mins_remaining sport ∧
    0 ≤ spreadScore opening_spread ∧ 0 ≤ diffScore score_diff ∧
    0 ≤ sportScore sport ∧
    ((calculate_opportunity_score pct_change mins_remaining opening_spread
        score_diff sport).grade = "D" →
      5 ≤ (calculate_opportunity_score pct_change mins_remaining
          opening_spread score_diff sport).total_score ∧
      (calculate_opportunity_score pct_change mins_remaining opening_spread
          score_diff sport).total_score ≤ 59) := by
  obtain ⟨l1, l2⟩ := lineScore_bounds pct_change
  obtain ⟨t1, t2⟩ := timeScore_bounds mins_remaining sport
  obtain ⟨s1, s2⟩ := spreadScore_bounds opening_spread
  obtain ⟨d1, d2⟩ := diffScore_bounds score_diff
  obtain ⟨p1, p2⟩ := sportScore_bounds sport
  have htot : 5 ≤ (calculate_opportunity_score pct_change mins_remaining
      opening_spread score_diff sport).total_score := by
    simp only [calculate_opportunity_score]; omega
  refine ⟨htot, fun h => by simp [sportScore, h], fun h => by simp [sportScore, h],
    l1, t1, s1, d1, by omega, fun hD => ⟨htot, ?_⟩⟩
  have hg : gradeOf (calculate_opportunity_score pct_change mins_remaining
      opening_spread score_diff sport).total_score = "D" := hD
  have := (gradeOf_chars _).2.2.2.1 hg
  omega

/-- Witness for C10: a dead opportunity (no movement, no clock estimate,
huge spread, blown-out score, non-NBA sport) still scores exactly 5 with
grade D. -/
theorem claim_C10_witness :
    5 ≤ (calculate_opportunity_score 0 none 20 20 "basketball_ncaab").total_score ∧
    (calculate_opportunity_score 0 none 20 20 "basketball_ncaab").total_score ≤ 59 := by
  have h := claim_C10_total_lower_bound 0 none 20 20 "basketball_ncaab"
  exact h.2.2.2.2.2.2.2.2 (by with_unfolding_all rfl)

/-- Counterexample for C1: in the live tracker's resolver an away-side bet
stored with a negative spread is settled with `-margin + bet_spread`, not
`-margin + abs(bet_spread)`: at `bet_spread = -5`, `margin = 0` the code
reports no cover (profit −110) although the claim's away formula gives
`-0 + |-5| = 5 > 0`, i.e. a cover. -/
theorem claim_C1_counterexample :
    betTeamIsHome "Away FC" "Home FC" = false ∧
    resolveBet "Away FC" "Home FC" (-5) 0 = (false, -110) ∧
    -(0 : ℚ) + |(-5 : ℚ)| > 0 := by
  refine ⟨by with_unfolding_all rfl, by with_unfolding_all rfl, by norm_num⟩

/-- Claim C1 (amended): margin is `home_score - away_score`; a home-side
bet is settled with `adjusted = margin + bet_spread`, covered iff
`adjusted > 0` (zero counts as non-covered); an away-side bet is settled
by the live tracker with `adjusted = -margin + bet_spread`, which equals
the claimed `-margin + |bet_spread|` whenever `bet_spread ≥ 0` (true of
every away bet the monitor records); the backfill simulator settles away
bets with `-margin + |mid_home|`, exactly the claimed formula for its
bets (whose away spread is `-mid_home`).  Profit is +100 on a cover and
−110 otherwise; home bet at −5.0 covers on margin +6 and loses on
margin +5. -/
theorem claim_C1_resolver (bet_team home_team : String) (s : ℚ) (m : ℤ) :
    (betTeamIsHome bet_team home_team = true →
      resolveBet bet_team home_team s m =
        (decide ((m : ℚ) + s > 0), if (m : ℚ) + s > 0 then 100 else -110)) ∧
    (betTeamIsHome bet_team home_team = false → 0 ≤ s →
      resolveBet bet_team home_team s m =
        (decide (-(m : ℚ) + |s| > 0),
         if -(m : ℚ) + |s| > 0 then 100 else -110)) ∧
    ((bet_team == home_team) = true →
      simulateOutcome bet_team home_team s m =
        (decide ((m : ℚ) + s > 0), if (m : ℚ) + s > 0 then 100 else -110)) ∧
    ((bet_team == home_team) = false →
      simulateOutcome bet_team home_team s m =
        (decide (-(m : ℚ) + |s| > 0),
         if -(m : ℚ) + |s| > 0 then 100 else -110)) ∧
    (∀ open_home mid_home : ℚ, home_team ≠ bet_team →
      ((simulateBetTeamSpread home_team bet_team open_home mid_home).1 =
          bet_team →
        (simulateBetTeamSpread home_team bet_team open_home mid_home).2 =
          -mid_home)) ∧
    resolveBet home_team home_team (-5) 6 = (true, 100) ∧
    resolveBet home_team home_team (-5) 5 = (false, -110) := by
  have hself : (home_team == home_team) = true := beq_self_eq_true home_team
  have hres : betTeamIsHome home_team home_team = true := by
    simp [betTeamIsHome, hself]
  refine ⟨fun h => ?_, fun h hs => ?_, fun h => ?_, fun h => ?_,
    fun open_home mid_home hne => ?_, ?_, ?_⟩
  · simp only [resolveBet, h, if_true, decide_eq_true_eq]
  · simp only [resolveBet, h, Bool.false_eq_true, if_false,
      abs_of_nonneg hs, decide_eq_true_eq]
  · simp only [simulateOutcome, h, if_true, decide_eq_true_eq]
  · simp only [simulateOutcome, h, Bool.false_eq_true, if_false,
      pyAbs_eq_abs, decide_eq_true_eq]
  · intro hsel
    unfold simulateBetTeamSpread at hsel ⊢
    split_ifs at hsel ⊢ <;> first | rfl | exact absurd hsel hne
  · simp only [resolveBet, hres, if_true]
    norm_num
  · simp only [resolveBet, hres, if_true]
    norm_num

/-- Witness for C1 at concrete teams, spreads and margins: a home bet at
−5 with margin 6 covers; an away bet at +5 with margin 0 covers in both
resolvers (the two away formulas agree on the non-negative spreads the
monitor records). -/
theorem claim_C1_witness :
    resolveBet "Home FC" "Home FC" (-5) 6 = (true, 100) ∧
    resolveBet "Away FC" "Home FC" 5 0 = (true, 100) ∧
    simulateOutcome "Away FC" "Home FC" 5 0 = (true, 100) := by
  refine ⟨(claim_C1_resolver "Home FC" "Home FC" 0 0).2.2.2.2.2.1, ?_, ?_⟩
  · have h := (claim_C1_resolver "Away FC" "Home FC" 5 0).2.1
      (by with_unfolding_all rfl) (by norm_num)
    rw [h]; norm_num
  · have h := (claim_C1_resolver "Away FC" "Home FC" 5 0).2.2.2.1
      (by with_unfolding_all rfl)
    rw [h]; norm_num

/-- Counterexample for C5: the stake is rounded to whole cents after the
20 % cap is applied, so it can exceed `0.20 × bankroll` by up to half a
cent: at bankroll $100.03 with a clamped Kelly fraction the stake is
$20.01 > $20.006 = 0.20 × bankroll. -/
theorem claim_C5_counterexample :
    calculate_bet_size (10003/100) (99/100) (-110) = 2001/100 ∧
    (0 : ℚ) ≤ 10003/100 ∧
    (1/5 : ℚ) * (10003/100) < 2001/100 := by
  refine ⟨by with_unfolding_all rfl, by norm_num, by norm_num⟩

/-- Claim C5 (amended): for bankroll ≥ 0 the sizer returns
`round2 (bankroll × max 0 (min (f* × 1/4) 0.20))` with
`b = 100/|odds|` for negative odds and `odds/100` for positive ones; the
stake is never negative, a negative raw Kelly value gives stake 0, and
the stake exceeds `0.20 × bankroll` by at most half a cent (the cap is
applied before rounding to cents); `sizeBet(100, 0.50, −110) = 0`. -/
theorem claim_C5_bet_size (bankroll win_prob : ℚ) (odds : ℤ)
    (hb : 0 ≤ bankroll) :
    calculate_bet_size bankroll win_prob odds =
      round2 (bankroll * max 0 (min (kellyPct win_prob odds * (1/4)) (1/5))) ∧
    0 ≤ calculate_bet_size bankroll win_prob odds ∧
    calculate_bet_size bankroll win_prob odds ≤ (1/5) * bankroll + 1/200 ∧
    (kellyPct win_prob odds < 0 →
      calculate_bet_size bankroll win_prob odds = 0) ∧
    calculate_bet_size 100 (1/2) (-110) = 0 := by
  have hpct0 : 0 ≤ max 0 (min (kellyPct win_prob odds * (1/4)) (1/5)) :=
    le_max_left 0 _
  have hpct1 : max 0 (min (kellyPct win_prob odds * (1/4)) (1/5)) ≤ 1/5 :=
    max_le (by norm_num) (min_le_right _ _)
  refine ⟨rfl, ?_, ?_, fun hneg => ?_, by with_unfolding_all rfl⟩
  · exact round2_nonneg (mul_nonneg hb hpct0)
  · calc calculate_bet_size bankroll win_prob odds
        ≤ bankroll * max 0 (min (kellyPct win_prob odds * (1/4)) (1/5)) +
          1/200 := round2_le _
      _ ≤ bankroll * (1/5) + 1/200 := by
          have := mul_le_mul_of_nonneg_left hpct1 hb
          linarith
      _ = (1/5) * bankroll + 1/200 := by ring
  · have hz : max 0 (min (kellyPct win_prob odds * (1/4)) (1/5)) = 0 := by
      have : min (kellyPct win_prob odds * (1/4)) (1/5) ≤ 0 := by
        have : kellyPct win_prob odds * (1/4) < 0 := by linarith
        exact le_trans (min_le_left _ _) this.le
      exact max_eq_left this
    show round2 (bankroll * max 0 (min (kellyPct win_prob odds * (1/4) : ℚ)
      (1/5))) = 0
    rw [hz, mul_zero]
    with_unfolding_all rfl

/-- Witness for C5 at bankroll 100, p = 0.5, odds −110: the stake is 0,
is non-negative, and respects the (half-cent slack) cap. -/
theorem claim_C5_witness :
    0 ≤ calculate_bet_size 100 (1/2) (-110) ∧
    calculate_bet_size 100 (1/2) (-110) ≤ (1/5) * 100 + 1/200 ∧
    calculate_bet_size 100 (1/2) (-110) = 0 := by
  have h := claim_C5_bet_size 100 (1/2) (-110) (by norm_num)
  exact ⟨h.2.1, h.2.2.1, h.2.2.2.2⟩

/-- Counterexample for C6: `Game.spread_change` in `db/models.py` guards
with Python truthiness (`not spread_home`), so a current spread of
exactly 0.0 with a present, non-zero opening spread yields null even
though the claim's formula gives `|0 / (−3)| − 1 = −1`; the backfill
function `calculate_spread_change` returns −1 there, so the two cited
implementations disagree at this input. -/
theorem claim_C6_counterexample :
    spreadChangeGame (some { spread_home := some (-3) })
      (some { spread_home := some 0 }) = none ∧
    calculate_spread_change (some (-3)) (some 0) = some (-1) ∧
    |(0 : ℚ) / (-3)| - 1 = -1 := by
  refine ⟨by with_unfolding_all rfl, ?_, by norm_num⟩
  have : pyAbs ((0 : ℚ) / (-3)) - 1 = -1 := by
    rw [pyAbs_eq_abs]; norm_num
  simp only [calculate_spread_change, this]
  norm_num

/-- Claim C6 (amended): `calculate_spread_change` returns
`abs(current/opening) − 1` when both sides are present and the opening is
non-zero, and null exactly when the opening is 0 or a side is missing;
`Game.spread_change` additionally returns null when the current home
spread is exactly 0 (Python truthiness), and otherwise agrees. -/
theorem claim_C6_pct_change (o c : ℚ) (oo co : Odds) :
    calculate_spread_change (some o) (some c) =
      (if o = 0 then none else some (|c / o| - 1)) ∧
    calculate_spread_change none (some c) = none ∧
    calculate_spread_change (some o) none = none ∧
    calculate_spread_change none none = none ∧
    (oo.spread_home = some o → co.spread_home = some c → o ≠ 0 → c ≠ 0 →
      spreadChangeGame (some oo) (some co) = some (|c / o| - 1)) ∧
    (co.spread_home = some 0 → spreadChangeGame (some oo) (some co) = none) ∧
    (oo.spread_home = some 0 → spreadChangeGame (some oo) (some co) = none) ∧
    (oo.spread_home = none → spreadChangeGame (some oo) (some co) = none) ∧
    (co.spread_home = none → spreadChangeGame (some oo) (some co) = none) ∧
    spreadChangeGame none (some co) = none ∧
    spreadChangeGame (some oo) none = none := by
  have habs : ∀ x : ℚ, pyAbs x - 1 = |x| - 1 := fun x => by
    rw [pyAbs_eq_abs]
  refine ⟨?_, rfl, rfl, rfl, fun h1 h2 ho hc => ?_, fun h => ?_, fun h => ?_,
    fun h => ?_, fun h => ?_, rfl, rfl⟩
  · simp only [calculate_spread_change, habs]
  · have hfo : pyFalsyQ (some o) = false := by simp [pyFalsyQ, ho]
    have hfc : pyFalsyQ (some c) = false := by simp [pyFalsyQ, hc]
    have hno : (some o : Option ℚ) ≠ some 0 := by simp [ho]
    simp only [spreadChangeGame, h1, h2, hfo, hfc, Bool.or_false,
      Bool.false_eq_true, if_false, if_neg hno, habs]
  · simp only [spreadChangeGame, pyFalsyQ, h]
    norm_num
  · simp only [spreadChangeGame, pyFalsyQ, h]
    norm_num
  · simp only [spreadChangeGame, pyFalsyQ, h]
    norm_num
  · simp only [spreadChangeGame, pyFalsyQ, h]
    norm_num

/-- Witness for C6 at opening −3.0, current −6.0: both implementations
report a 100 % move (`|(-6)/(-3)| − 1 = 1`). -/
theorem claim_C6_witness :
    calculate_spread_change (some (-3)) (some (-6)) = some 1 ∧
    spreadChangeGame (some { spread_home := some (-3) })
      (some { spread_home := some (-6) }) = some 1 := by
  have h := claim_C6_pct_change (-3) (-6) { spread_home := some (-3) }
    { spread_home := some (-6) }
  constructor
  · rw [h.1, if_neg (by norm_num)]
    norm_num
  · have h5 := h.2.2.2.2.1 rfl rfl (by norm_num) (by norm_num)
    rw [h5]
    norm_num

theorem aggregate_nil : aggregate [] = Stats.zero := by
  simp [aggregate]

theorem aggregate_roi (l : List BetRow) :
    (aggregate l).roi =
      (aggregate l).total_profit / (((aggregate l).total_bets : ℚ) * 110) := by
  by_cases h : l = []
  · subst h
    simp [aggregate, Stats.zero]
  · have hlen : l.length ≠ 0 := fun hl => h (List.length_eq_zero.mp hl)
    have hw : ((l.length : ℚ) * 110) ≠ 0 := by
      have : (l.length : ℚ) ≠ 0 := Nat.cast_ne_zero.mpr hlen
      positivity
    simp only [aggregate, if_neg h, if_neg hw]

theorem strategyFilter_nil (θ μ : Option ℚ) : strategyFilter [] θ μ = [] := by
  unfold strategyFilter
  cases θ <;> cases μ <;> rfl

/-- Claim C7: both aggregators return stats with
`roi = total_profit / (total_bets × 110)` (read with the code's guard:
`0` on an empty set, where the formula also gives `0/0 = 0` in ℚ), return
the exact all-zero record whenever the filtered set is empty, and return
the all-zero record on an empty bet collection — no division by zero ever
occurs. -/
theorem claim_C7_aggregator (bets : List BetRow) (θ μ : Option ℚ) :
    (get_strategy_stats bets θ μ).roi =
      (get_strategy_stats bets θ μ).total_profit /
        (((get_strategy_stats bets θ μ).total_bets : ℚ) * 110) ∧
    (strategyFilter bets θ μ = [] →
      get_strategy_stats bets θ μ = Stats.zero) ∧
    get_strategy_stats [] θ μ = Stats.zero ∧
    (get_bet_stats bets θ).roi =
      (get_bet_stats bets θ).total_profit /
        (((get_bet_stats bets θ).total_bets : ℚ) * 110) ∧
    get_bet_stats [] θ = Stats.zero := by
  refine ⟨aggregate_roi _, fun h => ?_, ?_, ?_, ?_⟩
  · unfold get_strategy_stats
    rw [h, aggregate_nil]
  · unfold get_strategy_stats
    rw [strategyFilter_nil, aggregate_nil]
  · exact aggregate_roi _
  · unfold get_bet_stats
    cases θ <;> simp only [List.filter_nil] <;> exact aggregate_nil

/-- Witness for C7: the empty bet collection, under a 75 % change filter,
yields the all-zero stats record and the zero-ROI identity. -/
theorem claim_C7_witness :
    get_strategy_stats [] (some (3/4)) none = Stats.zero ∧
    (get_strategy_stats [] (some (3/4)) none).roi = 0 ∧
    get_bet_stats [] (some (3/4)) = Stats.zero := by
  have h := claim_C7_aggregator [] (some (3/4)) none
  have hz := h.2.1 (strategyFilter_nil _ _)
  exact ⟨hz, by rw [hz]; rfl, h.2.2.2.2⟩

theorem findSpreadsMarket_none (home_team : String) (ms : List ApiMarket)
    (h : ∀ m ∈ ms, m.key ≠ "spreads") :
    findSpreadsMarket home_team ms = none := by
  induction ms with
  | nil => rfl
  | cons m rest ih =>
    unfold findSpreadsMarket
    rw [if_neg (h m (List.mem_cons_self m rest))]
    exact ih fun x hx => h x (List.mem_cons_of_mem m hx)

/-- The four spread slots of an `Odds` record, bundled for invariants. -/
def Odds.spreadSlots (o : Odds) :
    Option ℚ × Option ℚ × Option ℤ × Option ℤ :=
  (o.spread_home, o.spread_away, o.spread_home_price, o.spread_away_price)

theorem foldl_h2h_preserves_spreads (home_team : String)
    (outcomes : List ApiOutcome) : ∀ odds : Odds,
    (outcomes.foldl
      (fun acc o =>
        if o.name == home_team then { acc with moneyline_home := o.price }
        else { acc with moneyline_away := o.price }) odds).spreadSlots =
      odds.spreadSlots := by
  induction outcomes with
  | nil => intro odds; rfl
  | cons o rest ih =>
    intro odds
    rw [List.foldl_cons, ih]
    by_cases ho : (o.name == home_team) = true <;>
      simp [ho, Odds.spreadSlots]

theorem foldl_totals_preserves_spreads (outcomes : List ApiOutcome) :
    ∀ odds : Odds,
    (outcomes.foldl
      (fun acc o =>
        if o.name == "Over" then
          { acc with total := o.point, over_price := o.price }
        else { acc with under_price := o.price }) odds).spreadSlots =
      odds.spreadSlots := by
  induction outcomes with
  | nil => intro odds; rfl
  | cons o rest ih =>
    intro odds
    rw [List.foldl_cons, ih]
    by_cases ho : (o.name == "Over") = true <;>
      simp [ho, Odds.spreadSlots]

theorem processMarket_preserves_spreads (home_team : String) (odds : Odds)
    (m : ApiMarket) (h : m.key ≠ "spreads") :
    (processMarket home_team odds m).spreadSlots = odds.spreadSlots := by
  unfold processMarket
  rw [if_neg h]
  split_ifs with h2 h3
  · exact foldl_h2h_preserves_spreads home_team m.outcomes odds
  · exact foldl_totals_preserves_spreads m.outcomes odds
  · rfl

theorem from_api_response_foldl_preserves (home_team bookmaker_key : String)
    (bms : List ApiBookmaker)
    (h : ∀ bm ∈ bms, bm.key ≠ bookmaker_key ∨
      ∀ m ∈ bm.markets, m.key ≠ "spreads") :
    ∀ odds : Odds,
    (bms.foldl
      (fun odds bm =>
        if bm.key ≠ bookmaker_key then odds
        else bm.markets.foldl (processMarket home_team) odds)
      odds).spreadSlots = odds.spreadSlots := by
  induction bms with
  | nil => intro odds; rfl
  | cons bm rest ih =>
    intro odds
    rw [List.foldl_cons,
      ih (fun x hx => h x (List.mem_cons_of_mem bm hx))]
    by_cases hk : bm.key = bookmaker_key
    · rcases h bm (List.mem_cons_self bm rest) with hne | hm
      · exact absurd hk hne
      · rw [if_neg (by simp [hk])]
        have : ∀ ms : List ApiMarket, (∀ m ∈ ms, m.key ≠ "spreads") →
            ∀ o : Odds,
            (ms.foldl (processMarket home_team) o).spreadSlots =
              o.spreadSlots := by
          intro ms hms
          induction ms with
          | nil => intro o; rfl
          | cons m mrest mih =>
            intro o
            rw [List.foldl_cons,
              mih fun x hx => hms x (List.mem_cons_of_mem m hx),
              processMarket_preserves_spreads home_team o m
                (hms m (List.mem_cons_self m mrest))]
        exact this bm.markets hm odds
    · rw [if_pos hk]

/-- Claim C9: spread extraction returns the quadruple
`(home_spread, away_spread, home_price, away_price)` and, whenever no
block matches the bookmaker key or every matching block lacks a
`"spreads"` market, all four values are null — the functions are total,
so no exception can occur. -/
theorem claim_C9_extraction (bookmakers : List ApiBookmaker)
    (home_team bookmaker_key : String) :
    ((∀ bm ∈ bookmakers, bm.key ≠ "fanduel" ∨
        ∀ m ∈ bm.markets, m.key ≠ "spreads") →
      get_spread_from_bookmakers home_team bookmakers = SpreadQuad.nulls) ∧
    ((∀ bm ∈ bookmakers, bm.key ≠ bookmaker_key ∨
        ∀ m ∈ bm.markets, m.key ≠ "spreads") →
      (from_api_response bookmakers home_team bookmaker_key).spread_home =
          none ∧
        (from_api_response bookmakers home_team bookmaker_key).spread_away =
          none ∧
        (from_api_response bookmakers home_team
            bookmaker_key).spread_home_price = none ∧
        (from_api_response bookmakers home_team
            bookmaker_key).spread_away_price = none) := by
  constructor
  · intro h
    induction bookmakers with
    | nil => rfl
    | cons bm rest ih =>
      unfold get_spread_from_bookmakers
      by_cases hk : bm.key = "fanduel"
      · rcases h bm (List.mem_cons_self bm rest) with hne | hm
        · exact absurd hk hne
        · rw [if_pos hk, findSpreadsMarket_none home_team bm.markets hm]
          exact ih fun x hx => h x (List.mem_cons_of_mem bm hx)
      · rw [if_neg hk]
        exact ih fun x hx => h x (List.mem_cons_of_mem bm hx)
  · intro h
    have hs := from_api_response_foldl_preserves home_team bookmaker_key
      bookmakers h {}
    unfold from_api_response
    have h1 := congrArg (fun p => p.1) hs
    have h2 := congrArg (fun p => p.2.1) hs
    have h3 := congrArg (fun p => p.2.2.1) hs
    have h4 := congrArg (fun p => p.2.2.2) hs
    exact ⟨h1, h2, h3, h4⟩

/-- Witness for C9: a bookmaker list whose only `"fanduel"` block carries
just an `"h2h"` market yields the all-null quadruple from both
extraction functions. -/
theorem claim_C9_witness :
    get_spread_from_bookmakers "X" bmsCex = SpreadQuad.nulls ∧
    (from_api_response bmsCex "X" "fanduel").spread_home = none ∧
    (from_api_response bmsCex "X" "fanduel").spread_away = none := by
  have h := claim_C9_extraction bmsCex "X" "fanduel"
  have hyp : ∀ bm ∈ bmsCex, bm.key ≠ "fanduel" ∨
      ∀ m ∈ bm.markets, m.key ≠ "spreads" := by
    intro bm hbm
    rcases List.mem_pair.mp hbm with h1 | h1 <;> subst h1
    · left
      intro hc
      exact absurd hc (by decide)
    · right
      intro m hm
      rcases List.mem_singleton.mp hm with h2
      subst h2
      intro hc
      exact absurd hc (by decide)
  have hfull := h.2 hyp
  exact ⟨h.1 hyp, hfull.1, hfull.2.1⟩

theorem comboGT_true_roi {x y : Combo} (h : comboGT x y = true) :
    y.roi ≤ x.roi := by
  unfold comboGT at h
  split_ifs at h with h1
  · exact (of_decide_eq_true h).le
  all_goals exact le_of_eq (not_not.mp h1).symm

theorem comboGT_false_roi {x y : Combo} (h : comboGT x y = false) :
    x.roi ≤ y.roi := by
  unfold comboGT at h
  split_ifs at h with h1
  · exact le_of_not_lt (of_decide_eq_false h)
  all_goals exact le_of_eq (not_not.mp h1)

theorem foldlBest_spec (cs : List Combo) (b : Combo) :
    (cs.foldl (fun best x => if comboGT x best then x else best) b = b ∨
      cs.foldl (fun best x => if comboGT x best then x else best) b ∈ cs) ∧
    b.roi ≤ (cs.foldl (fun best x => if comboGT x best then x else best) b).roi ∧
    ∀ x ∈ cs,
      x.roi ≤ (cs.foldl (fun best x => if comboGT x best then x else best) b).roi := by
  induction cs generalizing b with
  | nil => exact ⟨Or.inl rfl, le_refl _, fun x hx => absurd hx (by simp)⟩
  | cons hd tl ih =>
    rw [List.foldl_cons]
    obtain ⟨hmem, hle, hall⟩ := ih (if comboGT hd b then hd else b)
    have hb' : b.roi ≤ (if comboGT hd b then hd else b).roi ∧
        hd.roi ≤ (if comboGT hd b then hd else b).roi := by
      by_cases hgt : comboGT hd b = true
      · rw [if_pos hgt]
        exact ⟨comboGT_true_roi hgt, le_refl _⟩
      · rw [if_neg hgt]
        exact ⟨le_refl _, comboGT_false_roi (Bool.not_eq_true _ ▸
          Bool.of_not_eq_true hgt)⟩
    refine ⟨?_, le_trans hb'.1 hle, fun x hx => ?_⟩
    · rcases hmem with heq | hmem
      · by_cases hgt : comboGT hd b = true
        · right
          rw [heq, if_pos hgt]
          exact List.mem_cons_self hd tl
        · left
          rw [heq, if_neg hgt]
      · right
        exact List.mem_cons_of_mem hd hmem
    · rcases List.mem_cons.mp hx with heq | hmem
      · subst heq
        exact le_trans hb'.2 hle
      · exact hall x hmem

set_option maxRecDepth 4000 in
/-- Counterexample for C8: on three identical winning NBA bets every
qualifying filter combination ties on ROI, and the sweep's
`sort(reverse=True)` over the whole stats tuple selects the combination
with the largest threshold and lexicographically largest bucket,
direction and sport labels — not the first-encountered combination in
enumeration order, which the claim prescribes. -/
theorem claim_C8_counterexample :
    pickBestCombo (sweepCombos betsCex) = some selCex ∧
    pickFirstMaxROI (sweepCombos betsCex) = some firstCex ∧
    pickBestCombo (sweepCombos betsCex) ≠
      pickFirstMaxROI (sweepCombos betsCex) := by
  refine ⟨by with_unfolding_all rfl, by with_unfolding_all rfl, ?_⟩
  intro h
  rw [show pickBestCombo (sweepCombos betsCex) = some selCex from
    by with_unfolding_all rfl,
    show pickFirstMaxROI (sweepCombos betsCex) = some firstCex from
    by with_unfolding_all rfl] at h
  have : selCex = firstCex := Option.some.inj h
  exact absurd (congrArg Combo.spread_name this) (by with_unfolding_all decide)

/-- Claim C8 (amended): the sweep's selected combination is one of the
recorded combinations (each subject to the ≥3-bet floor and positive ROI)
and attains the maximal ROI among them; ties on ROI are resolved by the
descending comparison of the remaining tuple fields (bet count, win rate,
profit, threshold, then the bucket/direction/sport labels as strings),
not by first-encountered position in enumeration order. -/
theorem claim_C8_sweep_selection (bets : List BetRecord) (sel : Combo)
    (hsel : pickBestCombo (sweepCombos bets) = some sel) :
    sel ∈ sweepCombos bets ∧
    ∀ c ∈ sweepCombos bets, c.roi ≤ sel.roi := by
  rcases hl : sweepCombos bets with _ | ⟨c, cs⟩
  · rw [hl] at hsel
    exact absurd hsel (by simp [pickBestCombo])
  · rw [hl] at hsel
    unfold pickBestCombo at hsel
    have hd := Option.some.inj hsel
    obtain ⟨hmem, hle, hall⟩ := foldlBest_spec cs c
    subst hd
    constructor
    · rcases hmem with heq | hmem
      · rw [heq]
        exact List.mem_cons_self c cs
      · exact List.mem_cons_of_mem c hmem
    · intro x hx
      rcases List.mem_cons.mp hx with heq | hmem
      · subst heq
        exact hle
      · exact hall x hmem

set_option maxRecDepth 4000 in
/-- Witness for C8 at the concrete sweep input: the selected combination
is a recorded one and its ROI dominates the first-encountered maximal-ROI
combination. -/
theorem claim_C8_witness :
    selCex ∈ sweepCombos betsCex ∧ firstCex.roi ≤ selCex.roi := by
  have h := claim_C8_sweep_selection betsCex selCex
    (by with_unfolding_all rfl)
  exact ⟨h.1, h.2 firstCex (by with_unfolding_all decide)⟩

end LiveOdds
